import Mathlib

/-!
Shallow embedding of the AWS App Mesh `VirtualNode` configuration builder
(`packages/@aws-cdk/aws-appmesh/lib/virtual-node.ts`) and the `ClientPolicy`
module, together with theorems about the claims on their behaviour.

JavaScript semantics is modelled explicitly: optional fields are `Option`,
JS truthiness of `x || d` on numbers treats `0` as falsy and on strings
treats the empty string as falsy, `x ?? d` is `Option.getD`, and a `throw`
is an `Except.error` or an error slot in the returned state.
-/

namespace AppMesh

/-- The `Protocol` enum from `shared-interfaces.ts`. -/
inductive Protocol
  | http
  | tcp
  | http2
  | grpc
deriving DecidableEq

/-- `PortMapping` from `shared-interfaces.ts`: a port together with a protocol. -/
structure PortMapping where
  port : Nat
  protocol : Protocol
deriving DecidableEq

/-- `HealthCheck` options from `shared-interfaces.ts`; every field is optional.
`interval` and `timeout` are `Duration` values, stored here in milliseconds. -/
structure HealthCheck where
  healthyThreshold : Option Nat := none
  interval : Option Nat := none
  path : Option String := none
  port : Option Nat := none
  protocol : Option Protocol := none
  timeout : Option Nat := none
  unhealthyThreshold : Option Nat := none
deriving DecidableEq

/-- `VirtualNodeListener` from `shared-interfaces.ts`: optional port mapping and
optional health check. -/
structure VirtualNodeListener where
  portMapping : Option PortMapping := none
  healthCheck : Option HealthCheck := none
deriving DecidableEq

/-- JS truthiness of an optional string: `undefined` and the empty string are falsy. -/
def truthyStr : Option String → Bool
  | none => false
  | some s => s ≠ ""

/-- JS `x || d` on an optional number: `undefined` and `0` fall back to `d`. -/
def orNat (x : Option Nat) (d : Nat) : Nat :=
  match x with
  | none => d
  | some n => if n = 0 then d else n

/-- The rendered `CfnVirtualNode.HealthCheckProperty` record. -/
structure HealthCheckProperty where
  healthyThreshold : Nat
  intervalMillis : Nat
  path : Option String
  port : Nat
  protocol : Protocol
  timeoutMillis : Nat
  unhealthyThreshold : Nat
deriving DecidableEq

/-- Modelled from the spec: `validateHealthChecks` is imported from
`./private/utils`, which is not among the source files. The spec describes the
validation rule set only as protocol-dependent field legality (the path/TCP and
path/GRPC checks, which `renderHealthCheck` performs itself before this call),
so the missing function is modelled as accepting every rendered record. -/
def validateHealthChecks (_hc : HealthCheckProperty) : Except String Unit :=
  Except.ok ()

/-- `renderHealthCheck(hc, pm)` from `virtual-node.ts`: `undefined` health check
renders to `undefined`; a truthy `path` together with an explicit TCP or GRPC
protocol throws; otherwise the record is built with JS `||` defaults and passed
through `validateHealthChecks`. -/
def renderHealthCheck (hc : Option HealthCheck) (pm : PortMapping) :
    Except String (Option HealthCheckProperty) :=
  match hc with
  | none => Except.ok none
  | some hc =>
    if hc.protocol = some Protocol.tcp ∧ truthyStr hc.path then
      Except.error "The path property cannot be set with Protocol.TCP"
    else if hc.protocol = some Protocol.grpc ∧ truthyStr hc.path then
      Except.error "The path property cannot be set with Protocol.GRPC"
    else
      let protocol := hc.protocol.getD pm.protocol
      let healthCheck : HealthCheckProperty :=
        { healthyThreshold := orNat hc.healthyThreshold 2
          intervalMillis := hc.interval.getD 5000
          path := if truthyStr hc.path then hc.path
                  else if protocol = Protocol.http then some "/" else none
          port := orNat hc.port pm.port
          protocol := hc.protocol.getD pm.protocol
          timeoutMillis := hc.timeout.getD 2000
          unhealthyThreshold := orNat hc.unhealthyThreshold 2 }
      match validateHealthChecks healthCheck with
      | Except.error e => Except.error e
      | Except.ok _ => Except.ok (some healthCheck)

/-- The rendered `CfnVirtualNode.ListenerProperty` record pushed by `addListeners`. -/
structure ListenerProperty where
  portMapping : PortMapping
  healthCheck : Option HealthCheckProperty
deriving DecidableEq

/-- The fallback port mapping `{ port: 8080, protocol: Protocol.HTTP }` used by
`addListeners` when a listener omits its port mapping. -/
def defaultPortMapping : PortMapping :=
  { port := 8080, protocol := Protocol.http }

/-- One iteration of the `addListeners` loop, without the push: the effective
port mapping plus the rendered health check. -/
def renderListener (l : VirtualNodeListener) : Except String ListenerProperty :=
  let pm := l.portMapping.getD defaultPortMapping
  (renderHealthCheck l.healthCheck pm).map
    (fun h => { portMapping := pm, healthCheck := h })

/-- The `for` loop of `addListeners`, made step-explicit: each iteration renders
the health check first (a throw there aborts with the pushes so far kept) and
then pushes one record. Returns the final list and the error, if one was thrown. -/
def pushListeners (acc : List ListenerProperty) :
    List VirtualNodeListener → List ListenerProperty × Option String
  | [] => (acc, none)
  | l :: rest =>
    match renderListener l with
    | Except.error e => (acc, some e)
    | Except.ok r => pushListeners (acc ++ [r]) rest

/-- `VirtualNodeBase.addListeners`: throws when the stored count plus the passed
count exceeds one, otherwise runs the push loop. First component is the
resulting `listeners` array, second the thrown error if any. -/
def addListeners (st : List ListenerProperty) (ls : List VirtualNodeListener) :
    List ListenerProperty × Option String :=
  if st.length + ls.length > 1 then
    (st, some "VirtualNode may have at most one listener")
  else
    pushListeners st ls

/-- Rendering a whole listener list at once (no partial effects): used to state
what a successful `addListeners` call appends. -/
def renderListeners : List VirtualNodeListener → Except String (List ListenerProperty)
  | [] => Except.ok []
  | l :: rest =>
    match renderListener l with
    | Except.error e => Except.error e
    | Except.ok r =>
      match renderListeners rest with
      | Except.error e => Except.error e
      | Except.ok rs => Except.ok (r :: rs)

/-- A `cdk.Construct` scope; the `bind` methods modelled here ignore it. -/
def Construct := Unit

/-- `CfnVirtualNode.TlsValidationContextFileTrustProperty`: the
`certificateChain` field of a file trust. It is `Option` because the
`ClientPolicy` module can assign `certificate[0]` of an empty array to it. -/
structure FileTrustProperty where
  certificateChain : Option String
deriving DecidableEq

/-- `CfnVirtualNode.TlsValidationContextAcmTrustProperty`: the ARNs of the
trusted certificate authorities. -/
structure AcmTrustProperty where
  certificateAuthorityArns : List String
deriving DecidableEq

/-- `CfnVirtualNode.TlsValidationContextTrustProperty`: a record with an
optional `file` and an optional `acm` variant. -/
structure TrustProperty where
  file : Option FileTrustProperty := none
  acm : Option AcmTrustProperty := none
deriving DecidableEq

/-- `CfnVirtualNode.TlsValidationContextProperty`: wraps the trust record. -/
structure TlsValidationContextProperty where
  trust : TrustProperty
deriving DecidableEq

/-- `TLSValidationConfig` from `virtual-node.ts`. -/
structure TLSValidationConfig where
  tlsValidation : TlsValidationContextProperty
deriving DecidableEq

/-- `FileTrustOptions` from `virtual-node.ts`: a single certificate chain path. -/
structure FileTrustOptions where
  certificateChain : String
deriving DecidableEq

/-- `ACMTrustOptions` from `virtual-node.ts`. -/
structure ACMTrustOptions where
  certificateAuthorityArns : List String
deriving DecidableEq

/-- The abstract class `TLSClientValidation` with its two concrete subclasses
`FileTrust` and `ACMTrust`, as a sum: each variant stores exactly the fields
the corresponding constructor copies from its options. -/
inductive TLSClientValidation
  | fileTrustOf (certificateChain : String)
  | acmTrustOf (certificateAuthorityArns : List String)
deriving DecidableEq

/-- Static factory `TLSClientValidation.fileTrust`: `new FileTrust(props)`. -/
def TLSClientValidation.fileTrust (props : FileTrustOptions) : TLSClientValidation :=
  TLSClientValidation.fileTrustOf props.certificateChain

/-- Static factory `TLSClientValidation.acmTrust`: `new ACMTrust(props)`. -/
def TLSClientValidation.acmTrust (props : ACMTrustOptions) : TLSClientValidation :=
  TLSClientValidation.acmTrustOf props.certificateAuthorityArns

/-- `FileTrust.bind` and `ACMTrust.bind`: each builds a validation config whose
trust record sets only its own variant. -/
def TLSClientValidation.bind (v : TLSClientValidation) (_scope : Construct) :
    TLSValidationConfig :=
  match v with
  | TLSClientValidation.fileTrustOf cc =>
    { tlsValidation := { trust := { file := some { certificateChain := some cc } } } }
  | TLSClientValidation.acmTrustOf arns =>
    { tlsValidation := { trust := { acm := some { certificateAuthorityArns := arns } } } }

/-- `TLSClientPolicyOptions` from `virtual-node.ts`. -/
structure TLSClientPolicyOptions where
  enforce : Option Bool := none
  ports : Option (List Nat) := none
  validation : TLSClientValidation
deriving DecidableEq

/-- `BackendDefaults` from `virtual-node.ts`. -/
structure BackendDefaults where
  tlsClientPolicy : TLSClientPolicyOptions
deriving DecidableEq

/-- `CfnVirtualNode.ClientPolicyTlsProperty` as assembled by this code:
`enforce`, `ports` and the validation context. -/
structure ClientPolicyTlsProperty where
  enforce : Bool
  ports : Option (List Nat)
  validation : TlsValidationContextProperty
deriving DecidableEq

/-- `CfnVirtualNode.ClientPolicyProperty`. -/
structure ClientPolicyProperty where
  tls : ClientPolicyTlsProperty
deriving DecidableEq

/-- `CfnVirtualNode.BackendDefaultsProperty`. -/
structure BackendDefaultsProperty where
  clientPolicy : ClientPolicyProperty
deriving DecidableEq

/-- The record `addBackendDefaults` pushes for given options. -/
def renderBackendDefaults (bd : BackendDefaults) (scope : Construct) :
    BackendDefaultsProperty :=
  { clientPolicy := { tls :=
    { enforce := bd.tlsClientPolicy.enforce.getD true
      ports := bd.tlsClientPolicy.ports
      validation := (bd.tlsClientPolicy.validation.bind scope).tlsValidation } } }

/-- `VirtualNode.addBackendDefaults`: pushes one record when the stored array is
empty, otherwise throws and leaves the array alone. -/
def addBackendDefaults (st : List BackendDefaultsProperty) (bd : BackendDefaults)
    (scope : Construct) : List BackendDefaultsProperty × Option String :=
  if st.length = 0 then
    (st ++ [renderBackendDefaults bd scope], none)
  else
    (st, some "Virtual Node can have only one backend default")

/-- The slice of `IVirtualService` that `addBackends` reads: the service name. -/
structure IVirtualService where
  virtualServiceName : String
deriving DecidableEq

/-- The `virtualService` part of `CfnVirtualNode.BackendProperty`. -/
structure VirtualServiceBackendProperty where
  virtualServiceName : String
deriving DecidableEq

/-- `CfnVirtualNode.BackendProperty`. -/
structure BackendProperty where
  virtualService : VirtualServiceBackendProperty
deriving DecidableEq

/-- The record `addBackends` pushes for one virtual service. -/
def renderBackend (s : IVirtualService) : BackendProperty :=
  { virtualService := { virtualServiceName := s.virtualServiceName } }

/-- `VirtualNodeBase.addBackends`: the push loop, one record per argument; the
body contains no throw. -/
def addBackends (st : List BackendProperty) :
    List IVirtualService → List BackendProperty
  | [] => st
  | s :: rest => addBackends (st ++ [renderBackend s]) rest

/-- The mutable arrays of a `VirtualNode`: `backends` and `listeners` from
`VirtualNodeBase` plus `backendDefaults` from `VirtualNode`. -/
structure VirtualNodeState where
  backends : List BackendProperty
  listeners : List ListenerProperty
  backendDefaults : List BackendDefaultsProperty
deriving DecidableEq

/-- `addBackends` as an operation on the whole node state. -/
def VirtualNodeState.addBackendsOp (st : VirtualNodeState)
    (props : List IVirtualService) : VirtualNodeState :=
  { st with backends := addBackends st.backends props }

/-- `addListeners` as an operation on the whole node state. -/
def VirtualNodeState.addListenersOp (st : VirtualNodeState)
    (ls : List VirtualNodeListener) : VirtualNodeState × Option String :=
  let r := addListeners st.listeners ls
  ({ st with listeners := r.1 }, r.2)

/-- `addBackendDefaults` as an operation on the whole node state. -/
def VirtualNodeState.addBackendDefaultsOp (st : VirtualNodeState)
    (bd : BackendDefaults) (scope : Construct) : VirtualNodeState × Option String :=
  let r := addBackendDefaults st.backendDefaults bd scope
  ({ st with backendDefaults := r.1 }, r.2)

namespace CP

/-- `FileTrustOptions` of the `ClientPolicy` module: here `certificateChain` is
an array of paths, and the `ClientPolicyOptions` fields are inherited. -/
structure FileTrustOptions where
  enforceTls : Option Bool := none
  ports : Option (List Nat) := none
  certificateChain : List String
deriving DecidableEq

/-- `AcmTrustOptions` of the `ClientPolicy` module. -/
structure AcmTrustOptions where
  enforceTls : Option Bool := none
  ports : Option (List Nat) := none
  certificateAuthorityArns : List String
deriving DecidableEq

/-- `ClientPolicyConfig`: wraps the rendered client policy. -/
structure ClientPolicyConfig where
  clientPolicy : AppMesh.ClientPolicyProperty
deriving DecidableEq

/-- `ClientPolicyImpl`: the private subclass holding the constructor arguments.
The `enforce: boolean = true` default parameter is applied at construction. -/
structure ClientPolicyImpl where
  enforce : Bool
  ports : Option (List Nat)
  certificateType : String
  certificate : List String
deriving DecidableEq

/-- Static factory `ClientPolicy.fileTrust`:
`new ClientPolicyImpl(props.enforceTls, props.ports, 'file', props.certificateChain)`. -/
def ClientPolicy.fileTrust (props : FileTrustOptions) : ClientPolicyImpl :=
  { enforce := props.enforceTls.getD true
    ports := props.ports
    certificateType := "file"
    certificate := props.certificateChain }

/-- Static factory `ClientPolicy.acmTrust`:
`new ClientPolicyImpl(props.enforceTls, props.ports, 'acm', props.certificateAuthorityArns)`. -/
def ClientPolicy.acmTrust (props : AcmTrustOptions) : ClientPolicyImpl :=
  { enforce := props.enforceTls.getD true
    ports := props.ports
    certificateType := "acm"
    certificate := props.certificateAuthorityArns }

/-- `ClientPolicyImpl.renderValidation`: the `file` variant takes only
`certificate[0]` (JS indexing, `undefined` on an empty array); the other
variant takes the whole array under `acm`. -/
def ClientPolicyImpl.renderValidation (p : ClientPolicyImpl) :
    AppMesh.TlsValidationContextProperty :=
  if p.certificateType = "file" then
    { trust := { file := some { certificateChain := p.certificate.head? } } }
  else
    { trust := { acm := some { certificateAuthorityArns := p.certificate } } }

/-- `ClientPolicyImpl.bind`: assembles the client policy record. -/
def ClientPolicyImpl.bind (p : ClientPolicyImpl) (_scope : AppMesh.Construct) :
    ClientPolicyConfig :=
  { clientPolicy := { tls :=
    { ports := p.ports
      enforce := p.enforce
      validation := p.renderValidation } } }

end CP

/-! ## Helper lemmas -/

/-- The push loop only ever appends: whatever happens, the resulting array is
the starting array followed by some (possibly empty) suffix. -/
theorem pushListeners_extends (ls : List VirtualNodeListener) :
    ∀ acc, ∃ t, (pushListeners acc ls).1 = acc ++ t := by
  induction ls with
  | nil => intro acc; exact ⟨[], by simp [pushListeners]⟩
  | cons l rest ih =>
    intro acc
    cases h : renderListener l with
    | error e => exact ⟨[], by simp [pushListeners, h]⟩
    | ok r =>
      obtain ⟨t, ht⟩ := ih (acc ++ [r])
      exact ⟨r :: t, by simp [pushListeners, h, ht]⟩

/-- The push loop adds at most one record per listener passed. -/
theorem pushListeners_length_le (ls : List VirtualNodeListener) :
    ∀ acc, (pushListeners acc ls).1.length ≤ acc.length + ls.length := by
  induction ls with
  | nil => intro acc; simp [pushListeners]
  | cons l rest ih =>
    intro acc
    cases h : renderListener l with
    | error e => simp [pushListeners, h]
    | ok r =>
      have := ih (acc ++ [r])
      simp [pushListeners, h]
      simp at this
      omega

/-- When rendering the whole listener list succeeds, the push loop appends
exactly the rendered records and reports no error. -/
theorem pushListeners_of_renderListeners_ok (ls : List VirtualNodeListener) :
    ∀ rs, renderListeners ls = Except.ok rs →
      ∀ acc, pushListeners acc ls = (acc ++ rs, none) := by
  induction ls with
  | nil =>
    intro rs h acc
    simp [renderListeners] at h
    simp [pushListeners, ← h]
  | cons l rest ih =>
    intro rs h acc
    cases hl : renderListener l with
    | error e => simp [renderListeners, hl] at h
    | ok r =>
      cases hr : renderListeners rest with
      | error e => simp [renderListeners, hl, hr] at h
      | ok rs2 =>
        simp [renderListeners, hl, hr] at h
        simp [pushListeners, hl, ih rs2 hr (acc ++ [r]), ← h]

/-- The backend push loop is plain appending of the rendered records. -/
theorem addBackends_append (st : List BackendProperty) (props : List IVirtualService) :
    addBackends st props = st ++ props.map renderBackend := by
  induction props generalizing st with
  | nil => simp [addBackends]
  | cons s rest ih => simp [addBackends, ih]

/-- Rendering a listener list yields one record per listener. -/
theorem renderListeners_length (ls : List VirtualNodeListener) :
    ∀ rs, renderListeners ls = Except.ok rs → rs.length = ls.length := by
  induction ls with
  | nil => intro rs h; simp [renderListeners] at h; simp [← h]
  | cons l rest ih =>
    intro rs h
    cases hl : renderListener l with
    | error e => simp [renderListeners, hl] at h
    | ok r =>
      cases hr : renderListeners rest with
      | error e => simp [renderListeners, hl, hr] at h
      | ok rs2 => simp [renderListeners, hl, hr] at h; simp [← h, ih rs2 hr]

/-- The record `renderHealthCheck` builds when neither protocol/path guard
fires, written out as a function of the inputs. -/
def renderedHealthCheckRecord (hc : HealthCheck) (pm : PortMapping) : HealthCheckProperty :=
  { healthyThreshold := orNat hc.healthyThreshold 2
    intervalMillis := hc.interval.getD 5000
    path := if truthyStr hc.path then hc.path
            else if hc.protocol.getD pm.protocol = Protocol.http then some "/" else none
    port := orNat hc.port pm.port
    protocol := hc.protocol.getD pm.protocol
    timeoutMillis := hc.timeout.getD 2000
    unhealthyThreshold := orNat hc.unhealthyThreshold 2 }

/-- When neither protocol/path guard fires, `renderHealthCheck` returns the
record written out by `renderedHealthCheckRecord`. -/
theorem renderHealthCheck_ok_eq (hc : HealthCheck) (pm : PortMapping)
    (g1 : ¬(hc.protocol = some Protocol.tcp ∧ truthyStr hc.path))
    (g2 : ¬(hc.protocol = some Protocol.grpc ∧ truthyStr hc.path)) :
    renderHealthCheck (some hc) pm =
      Except.ok (some (renderedHealthCheckRecord hc pm)) := by
  simp only [renderHealthCheck]
  rw [if_neg g1, if_neg g2]
  rfl

/-- A successful single-listener `addListeners` call pins down the rendered
listener record. -/
theorem addListeners_single_ok (st : List ListenerProperty) (l : VirtualNodeListener)
    (lp : ListenerProperty) (h : addListeners st [l] = (st ++ [lp], none)) :
    renderListener l = Except.ok lp := by
  by_cases hg : st.length + [l].length > 1
  · unfold addListeners at h
    rw [if_pos hg] at h
    have h2 := congrArg Prod.snd h
    simp at h2
  · unfold addListeners at h
    rw [if_neg hg] at h
    cases hl : renderListener l with
    | error e =>
      simp only [pushListeners, hl] at h
      have h2 := congrArg Prod.snd h
      simp at h2
    | ok r =>
      simp only [pushListeners, hl] at h
      have h1 := congrArg Prod.fst h
      simp at h1
      rw [h1]

/-- A successful `renderListener` yields the defaulted port mapping and a
successfully rendered health check. -/
theorem renderListener_ok (l : VirtualNodeListener) (lp : ListenerProperty)
    (h : renderListener l = Except.ok lp) :
    lp.portMapping = l.portMapping.getD defaultPortMapping ∧
    renderHealthCheck l.healthCheck (l.portMapping.getD defaultPortMapping) =
      Except.ok lp.healthCheck := by
  simp only [renderListener] at h
  cases hr : renderHealthCheck l.healthCheck (l.portMapping.getD defaultPortMapping) with
  | error e =>
    rw [hr] at h
    simp [Except.map] at h
  | ok h0 =>
    rw [hr] at h
    simp [Except.map] at h
    rw [← h]
    exact ⟨rfl, rfl⟩

/-! ## Sample inputs used by witnesses and counterexamples -/

/-- A listener whose health check sets a non-empty path together with an
explicit TCP protocol. -/
def pathTcpListener : VirtualNodeListener :=
  { portMapping := some { port := 8080, protocol := Protocol.tcp }
    healthCheck := some { path := some "/ping", protocol := some Protocol.tcp } }

/-- A listener that omits its port mapping and gives an empty health check. -/
def defaultsListener : VirtualNodeListener :=
  { healthCheck := some {} }

/-- The health check `addListeners` renders for `defaultsListener`. -/
def defaultsHealthCheck : HealthCheckProperty :=
  { healthyThreshold := 2
    intervalMillis := 5000
    path := some "/"
    port := 8080
    protocol := Protocol.http
    timeoutMillis := 2000
    unhealthyThreshold := 2 }

/-- What `addListeners` pushes for `defaultsListener`. -/
def defaultsRecord : ListenerProperty :=
  { portMapping := { port := 8080, protocol := Protocol.http },
    healthCheck := some defaultsHealthCheck }

/-- Concrete backend-default options built on a file trust. -/
def sampleBackendDefaults : BackendDefaults :=
  { tlsClientPolicy := { validation := TLSClientValidation.fileTrustOf "cert-chain.pem" } }

/-- A concrete construct scope. -/
def theScope : Construct := ()

/-! ## Claim theorems -/

/-- A listener whose health check sets the path property to the empty string
together with an explicit TCP protocol. -/
def emptyPathTcpListener : VirtualNodeListener :=
  { portMapping := some { port := 80, protocol := Protocol.tcp }
    healthCheck := some { path := some "", protocol := some Protocol.tcp } }

/-- The health check rendered for `emptyPathTcpListener`. -/
def emptyPathTcpHealthCheck : HealthCheckProperty :=
  { healthyThreshold := 2
    intervalMillis := 5000
    path := none
    port := 80
    protocol := Protocol.tcp
    timeoutMillis := 2000
    unhealthyThreshold := 2 }

/-- C2 counterexample: a health check that sets the path property (to the
empty string) together with protocol TCP does not make the call throw — the
code tests JS truthiness of the path, not whether it is set — and the record is
rendered with the default path instead. -/
theorem C2_counterexample :
    addListeners [] [emptyPathTcpListener] =
      ([{ portMapping := { port := 80, protocol := Protocol.tcp },
          healthCheck := some emptyPathTcpHealthCheck }], none) := by
  decide

/-- C2 amended: a health check that sets a non-empty path together with an
explicit TCP or GRPC protocol makes `renderHealthCheck` throw, and every health
check without such a combination renders without error. -/
theorem C2_amended (hc : HealthCheck) (pm : PortMapping) :
    (((hc.protocol = some Protocol.tcp ∨ hc.protocol = some Protocol.grpc) ∧
        truthyStr hc.path) →
      ∃ e, renderHealthCheck (some hc) pm = Except.error e) ∧
    (¬((hc.protocol = some Protocol.tcp ∨ hc.protocol = some Protocol.grpc) ∧
        truthyStr hc.path) →
      ∃ r, renderHealthCheck (some hc) pm = Except.ok (some r)) := by
  constructor
  · rintro ⟨hp | hp, hpath⟩
    · refine ⟨"The path property cannot be set with Protocol.TCP", ?_⟩
      simp only [renderHealthCheck]
      rw [if_pos ⟨hp, hpath⟩]
    · refine ⟨"The path property cannot be set with Protocol.GRPC", ?_⟩
      have h1 : ¬(hc.protocol = some Protocol.tcp ∧ truthyStr hc.path) := by
        rintro ⟨ha, -⟩
        rw [hp] at ha
        exact Protocol.noConfusion (Option.some.inj ha)
      simp only [renderHealthCheck]
      rw [if_neg h1, if_pos ⟨hp, hpath⟩]
  · intro hno
    have h1 : ¬(hc.protocol = some Protocol.tcp ∧ truthyStr hc.path) :=
      fun ⟨a, b⟩ => hno ⟨Or.inl a, b⟩
    have h2 : ¬(hc.protocol = some Protocol.grpc ∧ truthyStr hc.path) :=
      fun ⟨a, b⟩ => hno ⟨Or.inr a, b⟩
    refine ⟨renderedHealthCheckRecord hc pm, ?_⟩
    simp only [renderHealthCheck]
    rw [if_neg h1, if_neg h2]
    rfl

/-- Witness for C2 amended: the TCP-with-path combination throws, and a plain
HTTP health check renders. -/
theorem C2_amended_witness :
    (∃ e, renderHealthCheck (some { path := some "/ping", protocol := some Protocol.tcp })
      { port := 80, protocol := Protocol.tcp } = Except.error e) ∧
    (∃ r, renderHealthCheck (some { path := some "/ping", protocol := some Protocol.http })
      { port := 80, protocol := Protocol.http } = Except.ok (some r)) :=
  ⟨(C2_amended { path := some "/ping", protocol := some Protocol.tcp }
      { port := 80, protocol := Protocol.tcp }).1 ⟨Or.inl rfl, by decide⟩,
    (C2_amended { path := some "/ping", protocol := some Protocol.http }
      { port := 80, protocol := Protocol.http }).2 (by rintro ⟨hp | hp, -⟩ <;> simp at hp)⟩

/-- C3: the first call to `addBackendDefaults` appends exactly one record,
every later call throws `Virtual Node can have only one backend default` and
leaves the stored list unchanged, and the list never exceeds one element. -/
theorem C3_backendDefaults (st : List BackendDefaultsProperty) (bd : BackendDefaults)
    (scope : Construct) :
    (st = [] → addBackendDefaults st bd scope = ([renderBackendDefaults bd scope], none)) ∧
    (st ≠ [] → addBackendDefaults st bd scope =
      (st, some "Virtual Node can have only one backend default")) ∧
    (st.length ≤ 1 → (addBackendDefaults st bd scope).1.length ≤ 1) := by
  refine ⟨?_, ?_, ?_⟩
  · intro h; subst h; simp [addBackendDefaults]
  · intro h
    have hl : st.length ≠ 0 := by simpa using h
    simp [addBackendDefaults, hl]
  · intro h
    by_cases hl : st.length = 0
    · simp [addBackendDefaults, hl]
    · simp [addBackendDefaults, hl]; omega

/-- Witness for C3 at a concrete input. -/
theorem C3_backendDefaults_witness :
    addBackendDefaults [] sampleBackendDefaults theScope =
      ([renderBackendDefaults sampleBackendDefaults theScope], none) :=
  (C3_backendDefaults [] sampleBackendDefaults theScope).1 rfl

/-- C4: `fileTrust(p).bind` yields a trust record with only the file variant
carrying `p.certificateChain`, and `acmTrust(q).bind` yields a trust record
with only the acm variant carrying `q.certificateAuthorityArns`. -/
theorem C4_trustVariants (p : FileTrustOptions) (q : ACMTrustOptions) (scope : Construct) :
    ((TLSClientValidation.fileTrust p).bind scope).tlsValidation.trust =
      { file := some { certificateChain := some p.certificateChain }, acm := none } ∧
    ((TLSClientValidation.acmTrust q).bind scope).tlsValidation.trust =
      { file := none, acm := some { certificateAuthorityArns := q.certificateAuthorityArns } } :=
  ⟨rfl, rfl⟩

/-- Witness for C4 at concrete options. -/
theorem C4_trustVariants_witness :
    ((TLSClientValidation.fileTrust { certificateChain := "ca.pem" }).bind
        theScope).tlsValidation.trust =
      { file := some { certificateChain := some "ca.pem" }, acm := none } ∧
    ((TLSClientValidation.acmTrust { certificateAuthorityArns := ["arn:a", "arn:b"] }).bind
        theScope).tlsValidation.trust =
      { file := none, acm := some { certificateAuthorityArns := ["arn:a", "arn:b"] } } :=
  C4_trustVariants { certificateChain := "ca.pem" }
    { certificateAuthorityArns := ["arn:a", "arn:b"] } theScope

/-- C5: `addBackends` appends exactly one record per argument, in argument
order, each carrying the argument's `virtualServiceName` unchanged; its body
contains no throw, which the total function type reflects. -/
theorem C5_addBackends (st : List BackendProperty) (props : List IVirtualService) :
    addBackends st props = st ++ props.map renderBackend :=
  addBackends_append st props

/-- C1 counterexample: a single listener (stored plus passed counts is one, so
the cardinality guard passes) whose health check sets a non-empty path together
with an explicit TCP protocol makes `addListeners` throw and append nothing,
against the claim that any call within the cardinality bound appends exactly
the passed listeners. -/
theorem C1_counterexample :
    List.length ([] : List ListenerProperty) + [pathTcpListener].length ≤ 1 ∧
    addListeners [] [pathTcpListener] =
      ([], some "The path property cannot be set with Protocol.TCP") := by
  constructor
  · decide
  · decide

/-- C1 amended: `addListeners` throws whenever the stored count plus the passed
count exceeds one; otherwise it appends exactly the records rendered from the
passed listeners when health-check rendering succeeds, and throws (appending
nothing) when it fails; either way the at-most-one-listener invariant is
preserved. -/
theorem C1_amended (st : List ListenerProperty) (ls : List VirtualNodeListener)
    (hinv : st.length ≤ 1) :
    (st.length + ls.length > 1 →
      addListeners st ls = (st, some "VirtualNode may have at most one listener")) ∧
    (st.length + ls.length ≤ 1 →
      (∀ rs, renderListeners ls = Except.ok rs → addListeners st ls = (st ++ rs, none)) ∧
      (∀ e, renderListeners ls = Except.error e → addListeners st ls = (st, some e))) ∧
    (addListeners st ls).1.length ≤ 1 := by
  refine ⟨?_, ?_, ?_⟩
  · intro h
    unfold addListeners
    rw [if_pos h]
  · intro hle
    have hg : ¬(st.length + ls.length > 1) := by omega
    constructor
    · intro rs hrs
      unfold addListeners
      rw [if_neg hg, pushListeners_of_renderListeners_ok ls rs hrs st]
    · intro e he
      cases ls with
      | nil => simp [renderListeners] at he
      | cons l rest =>
        cases rest with
        | nil =>
          cases hl : renderListener l with
          | error e2 =>
            simp [renderListeners, hl] at he
            unfold addListeners
            rw [if_neg hg]
            simp [pushListeners, hl, he]
          | ok r => simp [renderListeners, hl] at he
        | cons l2 rest2 =>
          exfalso
          simp [List.length_cons] at hle
          omega
  · by_cases hg : st.length + ls.length > 1
    · unfold addListeners
      rw [if_pos hg]
      exact hinv
    · have hlen := pushListeners_length_le ls st
      unfold addListeners
      rw [if_neg hg]
      omega

/-- Witness for C1 amended at a concrete input: one listener with all fields
defaulted is appended as its rendered record. -/
theorem C1_amended_witness :
    addListeners [] [defaultsListener] = ([] ++ [defaultsRecord], none) :=
  ((C1_amended [] [defaultsListener] (by decide)).2.1 (by decide)).1
    [defaultsRecord] rfl

/-- C6: whenever `addListeners` throws — from the cardinality guard or from
health-check validation — the stored listeners list is exactly what it was
before the call. -/
theorem C6_atomicity (st : List ListenerProperty) (ls : List VirtualNodeListener)
    (e : String) (h : (addListeners st ls).2 = some e) :
    (addListeners st ls).1 = st := by
  by_cases hg : st.length + ls.length > 1
  · unfold addListeners
    rw [if_pos hg]
  · unfold addListeners at h ⊢
    rw [if_neg hg] at h ⊢
    cases ls with
    | nil => simp [pushListeners] at h
    | cons l rest =>
      cases rest with
      | nil =>
        cases hl : renderListener l with
        | error e2 => simp [pushListeners, hl]
        | ok r => simp [pushListeners, hl] at h
      | cons l2 rest2 =>
        exfalso
        simp [List.length_cons] at hg
        omega

/-- Witness for C6 at a concrete erroring call. -/
theorem C6_atomicity_witness :
    (addListeners [] [pathTcpListener]).1 = [] :=
  C6_atomicity [] [pathTcpListener]
    "The path property cannot be set with Protocol.TCP" (by decide)

/-- C7: each mutating operation only appends to its own list and leaves the
other two lists unchanged. -/
theorem C7_appendOnly (st : VirtualNodeState) (props : List IVirtualService)
    (ls : List VirtualNodeListener) (bd : BackendDefaults) (scope : Construct) :
    ((st.addBackendsOp props).backends = st.backends ++ props.map renderBackend ∧
      (st.addBackendsOp props).listeners = st.listeners ∧
      (st.addBackendsOp props).backendDefaults = st.backendDefaults) ∧
    ((∃ t, (st.addListenersOp ls).1.listeners = st.listeners ++ t) ∧
      (st.addListenersOp ls).1.backends = st.backends ∧
      (st.addListenersOp ls).1.backendDefaults = st.backendDefaults) ∧
    ((∃ t, (st.addBackendDefaultsOp bd scope).1.backendDefaults =
        st.backendDefaults ++ t) ∧
      (st.addBackendDefaultsOp bd scope).1.backends = st.backends ∧
      (st.addBackendDefaultsOp bd scope).1.listeners = st.listeners) := by
  refine ⟨⟨?_, rfl, rfl⟩, ⟨?_, rfl, rfl⟩, ⟨?_, rfl, rfl⟩⟩
  · exact addBackends_append st.backends props
  · by_cases hg : st.listeners.length + ls.length > 1
    · exact ⟨[], by simp [VirtualNodeState.addListenersOp, addListeners, hg]⟩
    · obtain ⟨t, ht⟩ := pushListeners_extends ls st.listeners
      exact ⟨t, by simp [VirtualNodeState.addListenersOp, addListeners, hg, ht]⟩
  · by_cases h0 : st.backendDefaults.length = 0
    · exact ⟨[renderBackendDefaults bd scope],
        by simp [VirtualNodeState.addBackendDefaultsOp, addBackendDefaults, h0]⟩
    · exact ⟨[], by simp [VirtualNodeState.addBackendDefaultsOp, addBackendDefaults, h0]⟩

/-- C8: for a listener accepted by `addListeners`, a missing port mapping
becomes port 8080 with protocol HTTP, and the rendered health check fills each
omitted field with its fixed default: thresholds 2, interval 5000 ms, timeout
2000 ms, port and protocol from the port mapping, and path `/` exactly when
the effective protocol is HTTP. -/
theorem C8_defaults (st : List ListenerProperty) (l : VirtualNodeListener)
    (lp : ListenerProperty) (h : addListeners st [l] = (st ++ [lp], none)) :
    (l.portMapping = none → lp.portMapping = { port := 8080, protocol := Protocol.http }) ∧
    (l.healthCheck = none → lp.healthCheck = none) ∧
    (∀ hc, l.healthCheck = some hc → ∃ r, lp.healthCheck = some r ∧
      (hc.healthyThreshold = none → r.healthyThreshold = 2) ∧
      (hc.unhealthyThreshold = none → r.unhealthyThreshold = 2) ∧
      (hc.interval = none → r.intervalMillis = 5000) ∧
      (hc.timeout = none → r.timeoutMillis = 2000) ∧
      (hc.port = none → r.port = lp.portMapping.port) ∧
      (hc.protocol = none → r.protocol = lp.portMapping.protocol) ∧
      (hc.path = none → r.path =
        if hc.protocol.getD lp.portMapping.protocol = Protocol.http
        then some "/" else none)) := by
  have hrl := addListeners_single_ok st l lp h
  obtain ⟨hpm, hrhc⟩ := renderListener_ok l lp hrl
  refine ⟨?_, ?_, ?_⟩
  · intro hnone
    rw [hpm, hnone]
    rfl
  · intro hnone
    rw [hnone] at hrhc
    simp [renderHealthCheck] at hrhc
    exact hrhc.symm
  · intro hc hsome
    rw [hsome] at hrhc
    by_cases g1 : hc.protocol = some Protocol.tcp ∧ truthyStr hc.path
    · simp only [renderHealthCheck] at hrhc
      rw [if_pos g1] at hrhc
      exact absurd hrhc (by simp)
    · by_cases g2 : hc.protocol = some Protocol.grpc ∧ truthyStr hc.path
      · simp only [renderHealthCheck] at hrhc
        rw [if_neg g1, if_pos g2] at hrhc
        exact absurd hrhc (by simp)
      · rw [renderHealthCheck_ok_eq hc (l.portMapping.getD defaultPortMapping) g1 g2] at hrhc
        have hr : lp.healthCheck = some (renderedHealthCheckRecord hc
            (l.portMapping.getD defaultPortMapping)) := by
          exact (Except.ok.inj hrhc).symm
        refine ⟨renderedHealthCheckRecord hc (l.portMapping.getD defaultPortMapping),
          hr, ?_, ?_, ?_, ?_, ?_, ?_, ?_⟩
        · intro hnone; simp [renderedHealthCheckRecord, orNat, hnone]
        · intro hnone; simp [renderedHealthCheckRecord, orNat, hnone]
        · intro hnone; simp [renderedHealthCheckRecord, hnone]
        · intro hnone; simp [renderedHealthCheckRecord, hnone]
        · intro hnone; rw [hpm]; simp [renderedHealthCheckRecord, orNat, hnone]
        · intro hnone; rw [hpm]; simp [renderedHealthCheckRecord, hnone]
        · intro hnone; rw [hpm]; simp [renderedHealthCheckRecord, truthyStr, hnone]

/-- Witness for C8: the all-defaults listener gets the default port mapping. -/
theorem C8_defaults_witness :
    defaultsRecord.portMapping = { port := 8080, protocol := Protocol.http } :=
  (C8_defaults [] defaultsListener defaultsRecord (by decide)).1 rfl

/-- C9: the legality check reads only the health check's own protocol field: a
health check that sets a (non-empty) path with no explicit protocol is accepted
even when the port mapping's protocol is TCP or GRPC, and the rendered record
carries both the path and the protocol inherited from the port mapping. -/
theorem C9_inheritedProtocol (l : VirtualNodeListener) (hc : HealthCheck)
    (pm : PortMapping) (hpm : l.portMapping = some pm) (hhc : l.healthCheck = some hc)
    (hpath : truthyStr hc.path) (hproto : hc.protocol = none)
    (hp : pm.protocol = Protocol.tcp ∨ pm.protocol = Protocol.grpc) :
    ∃ r, addListeners [] [l] =
        ([{ portMapping := pm, healthCheck := some r }], none) ∧
      r.path = hc.path ∧ r.protocol = pm.protocol := by
  have g1 : ¬(hc.protocol = some Protocol.tcp ∧ truthyStr hc.path) := by
    rintro ⟨ha, -⟩
    rw [hproto] at ha
    exact Option.noConfusion ha
  have g2 : ¬(hc.protocol = some Protocol.grpc ∧ truthyStr hc.path) := by
    rintro ⟨ha, -⟩
    rw [hproto] at ha
    exact Option.noConfusion ha
  have hr : renderListener l = Except.ok
      { portMapping := pm, healthCheck := some (renderedHealthCheckRecord hc pm) } := by
    simp only [renderListener, hpm, hhc, Option.getD]
    rw [renderHealthCheck_ok_eq hc pm g1 g2]
    rfl
  refine ⟨renderedHealthCheckRecord hc pm, ?_, ?_, ?_⟩
  · unfold addListeners
    rw [if_neg (by simp)]
    simp only [pushListeners, hr]
    rfl
  · simp [renderedHealthCheckRecord, hpath]
  · simp [renderedHealthCheckRecord, hproto]

/-- A listener whose health check sets a path but no protocol, over a TCP port
mapping. -/
def inheritedTcpListener : VirtualNodeListener :=
  { portMapping := some { port := 80, protocol := Protocol.tcp }
    healthCheck := some { path := some "/health" } }

/-- Witness for C9 at a concrete listener. -/
theorem C9_inheritedProtocol_witness :
    ∃ r, addListeners [] [inheritedTcpListener] =
        ([{ portMapping := { port := 80, protocol := Protocol.tcp },
            healthCheck := some r }], none) ∧
      r.path = some "/health" ∧ r.protocol = Protocol.tcp :=
  C9_inheritedProtocol inheritedTcpListener { path := some "/health" }
    { port := 80, protocol := Protocol.tcp } rfl rfl (by decide) rfl (Or.inl rfl)

/-- C10: `ClientPolicy.fileTrust(props).bind` renders a client policy whose file
trust carries only the first element of `certificateChain`, whose enforce flag
defaults to true when `enforceTls` is undefined, and whose ports equal
`props.ports`; `acmTrust` carries the full `certificateAuthorityArns` list
under the acm trust. -/
theorem C10_clientPolicy (p : CP.FileTrustOptions) (q : CP.AcmTrustOptions)
    (scope : Construct) (c0 : String) (cs : List String)
    (hp : p.certificateChain = c0 :: cs) :
    ((CP.ClientPolicy.fileTrust p).bind scope).clientPolicy.tls =
      { enforce := p.enforceTls.getD true,
        ports := p.ports,
        validation := { trust := { file := some { certificateChain := some c0 } } } } ∧
    (p.enforceTls = none →
      ((CP.ClientPolicy.fileTrust p).bind scope).clientPolicy.tls.enforce = true) ∧
    ((CP.ClientPolicy.acmTrust q).bind scope).clientPolicy.tls =
      { enforce := q.enforceTls.getD true,
        ports := q.ports,
        validation := { trust :=
          { acm := some { certificateAuthorityArns := q.certificateAuthorityArns } } } } := by
  refine ⟨?_, ?_, ?_⟩
  · simp [CP.ClientPolicy.fileTrust, CP.ClientPolicyImpl.bind,
      CP.ClientPolicyImpl.renderValidation, hp]
  · intro h
    simp [CP.ClientPolicy.fileTrust, CP.ClientPolicyImpl.bind, h]
  · simp only [CP.ClientPolicy.acmTrust, CP.ClientPolicyImpl.bind,
      CP.ClientPolicyImpl.renderValidation]
    rw [if_neg (by decide)]

/-- Concrete file-trust options with a two-element chain. -/
def sampleFileTrust : CP.FileTrustOptions :=
  { certificateChain := ["root.pem", "extra.pem"] }

/-- Concrete acm-trust options. -/
def sampleAcmTrust : CP.AcmTrustOptions :=
  { certificateAuthorityArns := ["arn:aws:acm:ca-1"] }

/-- Witness for C10 at concrete options. -/
theorem C10_clientPolicy_witness :
    ((CP.ClientPolicy.fileTrust sampleFileTrust).bind theScope).clientPolicy.tls =
      { enforce := true,
        ports := none,
        validation := { trust := { file := some { certificateChain := some "root.pem" } } } } ∧
    (sampleFileTrust.enforceTls = none →
      ((CP.ClientPolicy.fileTrust sampleFileTrust).bind theScope).clientPolicy.tls.enforce =
        true) ∧
    ((CP.ClientPolicy.acmTrust sampleAcmTrust).bind theScope).clientPolicy.tls =
      { enforce := true,
        ports := none,
        validation := { trust :=
          { acm := some { certificateAuthorityArns := ["arn:aws:acm:ca-1"] } } } } :=
  C10_clientPolicy sampleFileTrust sampleAcmTrust theScope "root.pem" ["extra.pem"] rfl

/-- Witness for C5 at concrete services. -/
theorem C5_addBackends_witness :
    addBackends [] [{ virtualServiceName := "svc-a" }, { virtualServiceName := "svc-b" }] =
      [] ++ [{ virtualServiceName := "svc-a" },
        { virtualServiceName := "svc-b" }].map renderBackend :=
  C5_addBackends [] [{ virtualServiceName := "svc-a" }, { virtualServiceName := "svc-b" }]

end AppMesh
